import Mathlib

/-!
Verification of the StudyBuddy repository.

This file gives a shallow embedding of the view-state controller in
src/App.tsx (and of the variant controller in src/unnamed/part_000), of
the response-parsing helpers in src/services/geminiService.ts, and of the
JavaScript string and JSON primitives those helpers call, together with
theorems settling the frozen claims about them.

Modelling conventions: JavaScript strings are Lean String values and the
ASCII fragments of toLowerCase, startsWith, includes, split and the two
regular expressions used by the code are modelled directly over the
character list of the string; JSON.parse is modelled by a fuel-driven
recursive-descent parser returning Option Json (numbers are modelled as
integers, which is enough for every result below, since both sides of a
refinement share the same parser and all concrete inputs are integer-free
or fail to parse); React state is a record, and each handler is a function
from the record to the record describing the net effect of its setState
calls on the success path of the modelled operation.
-/

namespace StudyBuddy

/-! ## JavaScript string primitives -/

/-- ASCII case folding, the fragment of String.prototype.toLowerCase the
code relies on (the marker words compared are all ASCII). -/
def charToLower (c : Char) : Char :=
  if 'A' ≤ c ∧ c ≤ 'Z' then Char.ofNat (c.toNat + 32) else c

/-- JavaScript s.toLowerCase() on ASCII text. -/
def jsToLowerCase (s : String) : String :=
  String.mk (s.data.map charToLower)

/-- JavaScript s.startsWith(p). -/
def strStartsWith (s p : String) : Bool :=
  p.data.isPrefixOf s.data

/-- Split a character list around the first occurrence of pat: returns
(before, after) with the occurrence removed, none when pat does not occur. -/
def splitFirst (pat : List Char) : List Char → Option (List Char × List Char)
  | [] => if pat.isEmpty then some ([], []) else none
  | c :: rest =>
    if pat.isPrefixOf (c :: rest) then
      some ([], (c :: rest).drop pat.length)
    else
      match splitFirst pat rest with
      | some (before, after) => some (c :: before, after)
      | none => none

/-- JavaScript s.includes(needle). -/
def containsSubstr (needle haystack : String) : Bool :=
  (splitFirst needle.data haystack.data).isSome

/-! ## Errors and the quota special case

src/services/geminiService.ts lines 11-53 and the handleError function of
src/App.tsx lines 73-81. A JavaScript Error is modelled by its message. -/

structure JsError where
  message : String
deriving DecidableEq

/-- The default message of the QuotaExceededError class. -/
def quotaExceededMessage : String :=
  "API quota exceeded. Please check your plan and billing details."

/-- new QuotaExceededError() with the default message. -/
def QuotaExceededError : JsError :=
  { message := quotaExceededMessage }

/-- isQuotaError from geminiService: the message contains RESOURCE_EXHAUSTED. -/
def isQuotaError (e : JsError) : Bool :=
  containsSubstr "RESOURCE_EXHAUSTED" e.message

/-- The generateContent wrapper of geminiService, restricted to its error
handling: a failing backend call whose error is a quota error is rethrown
as a fresh QuotaExceededError, every other outcome passes through. -/
def generateContent (backend : Except JsError Unit) : Except JsError Unit :=
  match backend with
  | Except.ok r => Except.ok r
  | Except.error e =>
    if isQuotaError e then Except.error QuotaExceededError else Except.error e

/-- The generic banner text App.handleError sets for non-quota errors. -/
def genericErrorMessage : String :=
  "An unexpected error occurred. Please try again."

/-- App.handleError, restricted to the banner it sets for a caught error. -/
def handleError (e : JsError) : String :=
  if isQuotaError e then quotaExceededMessage else genericErrorMessage

/-- The banner shown after a backend call fails with error e and the failure
travels through the generateContent wrapper into a catch block that calls
handleError, as in every non-chat feature handler of App.tsx. -/
def bannerAfterBackendError (e : JsError) : String :=
  match generateContent (Except.error e) with
  | Except.error e2 => handleError e2
  | Except.ok _ => genericErrorMessage

/-! ## A model of JSON values and of JSON.parse

Strict JSON as JSON.parse accepts it, with numbers restricted to integers
(no fraction or exponent forms: an input using them simply fails to parse
in the model; every theorem below either shares this parser on both sides
of an equality or evaluates it on integer-free concrete inputs). -/

inductive Json where
  | null
  | bool (b : Bool)
  | num (n : Int)
  | str (s : String)
  | arr (items : List Json)
  | obj (fields : List (String × Json))

/-- The opening brace character, written by code point. -/
def lbraceChar : Char := Char.ofNat 123

/-- The closing brace character, written by code point. -/
def rbraceChar : Char := Char.ofNat 125

/-- The four JSON whitespace characters. -/
def isJsonWs (c : Char) : Bool :=
  c = ' ' || c = '\t' || c = '\n' || c = '\r'

def skipWs : List Char → List Char
  | [] => []
  | c :: rest => if isJsonWs c then skipWs rest else c :: rest

def isDigit (c : Char) : Bool :=
  decide ('0' ≤ c) && decide (c ≤ '9')

/-- The single-character escapes of JSON strings; \u escapes are not
modelled (an input using them fails to parse, see the parser note). -/
def escChar (e : Char) : Option Char :=
  if e = '"' then some '"'
  else if e = '\\' then some '\\'
  else if e = '/' then some '/'
  else if e = 'n' then some '\n'
  else if e = 't' then some '\t'
  else if e = 'r' then some '\r'
  else if e = 'b' then some (Char.ofNat 8)
  else if e = 'f' then some (Char.ofNat 12)
  else none

/-- Body of a JSON string literal after the opening quote: the decoded
characters and the remainder after the closing quote. Unescaped control
characters are rejected, as JSON.parse rejects them. -/
def parseStringBody : List Char → Option (List Char × List Char)
  | [] => none
  | c :: rest =>
    if c = '"' then some ([], rest)
    else if c = '\\' then
      match rest with
      | [] => none
      | e :: rest2 =>
        match escChar e with
        | some ch =>
          match parseStringBody rest2 with
          | some (out, rem) => some (ch :: out, rem)
          | none => none
        | none => none
    else if c.toNat < 32 then none
    else
      match parseStringBody rest with
      | some (out, rem) => some (c :: out, rem)
      | none => none

def takeDigits : List Char → List Char × List Char
  | [] => ([], [])
  | c :: rest =>
    if isDigit c then
      let p := takeDigits rest
      (c :: p.1, p.2)
    else ([], c :: rest)

def digitsToNatAux : Nat → List Char → Nat
  | acc, [] => acc
  | acc, c :: rest => digitsToNatAux (acc * 10 + (c.toNat - 48)) rest

/-- An integer JSON number starting at cs (sign already consumed). Leading
zeros and fraction or exponent forms are rejected. -/
def parseNumFrom (neg : Bool) (cs : List Char) : Option (Json × List Char) :=
  match takeDigits cs with
  | ([], _) => none
  | (d :: ds, rest) =>
    if d = '0' ∧ ds ≠ [] then none
    else
      let ok : Bool :=
        match rest with
        | [] => true
        | r :: _ => !(r = '.' || r = 'e' || r = 'E')
      if ok then
        let v : Int := Int.ofNat (digitsToNatAux 0 (d :: ds))
        some (Json.num (if neg then -v else v), rest)
      else none

def parseKeyword (cs : List Char) : Option (Json × List Char) :=
  if ("null".data).isPrefixOf cs then some (Json.null, cs.drop 4)
  else if ("true".data).isPrefixOf cs then some (Json.bool true, cs.drop 4)
  else if ("false".data).isPrefixOf cs then some (Json.bool false, cs.drop 5)
  else none

/-- The three modes of the recursive-descent parser: a value, the items of
an array after at least one is required, the fields of an object after at
least one is required. Accumulators are kept in reverse. -/
inductive PMode where
  | value
  | arrItems (acc : List Json)
  | objFields (acc : List (String × Json))

/-- One fuel-indexed parsing function covering all three modes, so that it
is structurally recursive on the fuel and reduces inside the kernel. -/
def parseStep : Nat → PMode → List Char → Option (Json × List Char)
  | 0, _, _ => none
  | Nat.succ fuel, PMode.value, cs =>
    match skipWs cs with
    | [] => none
    | c :: rest =>
      if c = '"' then
        match parseStringBody rest with
        | some (out, rem) => some (Json.str (String.mk out), rem)
        | none => none
      else if c = lbraceChar then
        match skipWs rest with
        | [] => none
        | d :: rest2 =>
          if d = rbraceChar then some (Json.obj [], rest2)
          else parseStep fuel (PMode.objFields []) rest
      else if c = '[' then
        match skipWs rest with
        | [] => none
        | d :: rest2 =>
          if d = ']' then some (Json.arr [], rest2)
          else parseStep fuel (PMode.arrItems []) rest
      else if c = '-' then parseNumFrom true rest
      else if isDigit c then parseNumFrom false (c :: rest)
      else parseKeyword (c :: rest)
  | Nat.succ fuel, PMode.arrItems acc, cs =>
    match parseStep fuel PMode.value cs with
    | none => none
    | some (v, rest) =>
      match skipWs rest with
      | [] => none
      | c :: rest2 =>
        if c = ',' then parseStep fuel (PMode.arrItems (v :: acc)) rest2
        else if c = ']' then some (Json.arr (v :: acc).reverse, rest2)
        else none
  | Nat.succ fuel, PMode.objFields acc, cs =>
    match skipWs cs with
    | [] => none
    | c :: rest =>
      if c = '"' then
        match parseStringBody rest with
        | none => none
        | some (keyChars, rest2) =>
          match skipWs rest2 with
          | [] => none
          | d :: rest3 =>
            if d = ':' then
              match parseStep fuel PMode.value rest3 with
              | none => none
              | some (v, rest4) =>
                match skipWs rest4 with
                | [] => none
                | e :: rest5 =>
                  if e = ',' then
                    parseStep fuel (PMode.objFields ((String.mk keyChars, v) :: acc)) rest5
                  else if e = rbraceChar then
                    some (Json.obj ((String.mk keyChars, v) :: acc).reverse, rest5)
                  else none
            else none
      else none

/-- JSON.parse: some value when the whole input is one JSON value with only
whitespace around it, none when JSON.parse would throw. -/
def Json.parse (s : String) : Option Json :=
  match parseStep (2 * s.length + 2) PMode.value s.data with
  | some (j, rest) => if (skipWs rest).isEmpty then some j else none
  | none => none

/-- JavaScript property access json[key] on a parsed value: objects keep
the last binding of a duplicated key, every non-object has no properties. -/
def objGet (j : Json) (key : String) : Option Json :=
  match j with
  | Json.obj fields =>
    match (fields.reverse).find? (fun f => f.1 = key) with
    | some f => some f.2
    | none => none
  | _ => none

/-- JavaScript truthiness of a parsed JSON value. -/
def jsTruthy : Json → Bool
  | Json.null => false
  | Json.bool b => b
  | Json.num n => decide (n ≠ 0)
  | Json.str s => !s.isEmpty
  | Json.arr _ => true
  | Json.obj _ => true

/-! ## Fenced-block extraction and the plain-text fallback

The service functions match the response text against the regular
expression matching a literal three-backtick json fence: an opening
fence-plus-newline, a lazily matched group, then a newline-plus-fence;
the fallback filter keeps the lines matching digits, a period and one
whitespace character at the start of the line. -/

/-- The characters the opening delimiter of a fenced json block. -/
def openPat : List Char := ("```json\n").data

/-- The characters of the closing delimiter of a fenced json block. -/
def closePat : List Char := ("\n```").data

/-- First match of the fenced-block regular expression: at the earliest
position where the opening delimiter occurs and a closing delimiter occurs
after it, the (lazy, hence shortest) group between them. -/
def extractFenced : List Char → Option (List Char)
  | [] => none
  | c :: rest =>
    if openPat.isPrefixOf (c :: rest) then
      match splitFirst closePat ((c :: rest).drop openPat.length) with
      | some (grp, _) => some grp
      | none => extractFenced rest
    else extractFenced rest

/-- JavaScript text.split with separator a single newline, on the
character list of the text. -/
def splitLines : List Char → List (List Char)
  | [] => [[]]
  | c :: rest =>
    if c = '\n' then [] :: splitLines rest
    else
      match splitLines rest with
      | l :: ls => (c :: l) :: ls
      | [] => [[c]]

/-- The ASCII whitespace characters matched by the regex class backslash-s
(the Unicode space characters it also matches never arise below). -/
def isJsWs (c : Char) : Bool :=
  c = ' ' || c = '\t' || c = '\n' || c = '\r' ||
  c = Char.ofNat 11 || c = Char.ofNat 12

/-- After the leading digit of a numbered line: the remaining digits, then
a period, then one whitespace character. -/
def afterDigits : List Char → Bool
  | [] => false
  | c :: rest =>
    if isDigit c then afterDigits rest
    else if c = '.' then
      match rest with
      | w :: _ => isJsWs w
      | [] => false
    else false

/-- The test of the fallback regular expression on one line: one or more
digits, a period, then a whitespace character, at the start of the line. -/
def startsNumberedLine : List Char → Bool
  | [] => false
  | c :: rest => isDigit c && afterDigits rest

/-- The jsonText selected by the service functions: the fenced group when
the regex matches and the group is truthy (a JavaScript empty string is
falsy, so an empty group falls back to the whole text), otherwise the
whole response text. -/
def jsonTextOf (text : String) : String :=
  match extractFenced text.data with
  | some grp => if grp.isEmpty then text else String.mk grp
  | none => text

/-- json.questions followed by the or-empty-list default: the value of the
questions property when it is truthy, the empty array otherwise. -/
def questionsValue (j : Json) : Json :=
  match objGet j "questions" with
  | some v => if jsTruthy v then v else Json.arr []
  | none => Json.arr []

/-- json.flashcards followed by the or-empty-list default. -/
def flashcardsValue (j : Json) : Json :=
  match objGet j "flashcards" with
  | some v => if jsTruthy v then v else Json.arr []
  | none => Json.arr []

/-- The numbered lines of the raw response text, as the catch branch of
generateQuizQuestions computes them. -/
def fallbackQuizLines (raw : String) : List Json :=
  ((splitLines raw.data).filter (fun l => startsNumberedLine l)).map
    (fun l => Json.str (String.mk l))

/-- generateQuizQuestions of geminiService, from the response text to the
returned value (the result value is kept as a Json value because the
untyped JavaScript returns json.questions whatever it is). -/
def generateQuizQuestions (responseText : String) : Json :=
  match Json.parse (jsonTextOf responseText) with
  | some json => questionsValue json
  | none => Json.arr (fallbackQuizLines responseText)

/-- generateFlashcards of geminiService, from the response text to the
returned value; its catch branch returns the empty list. -/
def generateFlashcards (responseText : String) : Json :=
  match Json.parse (jsonTextOf responseText) with
  | some json => flashcardsValue json
  | none => Json.arr []

/-! ## The C5 and C6 claims read literally and as amended -/

/-- Parsing a chosen jsonText with the quiz fallback on the raw text,
with the literal reading of the claim: the value of the questions key
whenever the key is present. -/
def quizLiteralAt (jsonText raw : String) : Json :=
  match Json.parse jsonText with
  | some json =>
    match objGet json "questions" with
    | some v => v
    | none => Json.arr []
  | none => Json.arr (fallbackQuizLines raw)

/-- C5 read literally: the content of a fenced block when one occurs is
parsed, otherwise the whole text; the value of the questions key (or the
empty list when the key is absent) on success, the numbered lines of the
raw text on failure. -/
def quizClaimLiteral (text : String) : Json :=
  match extractFenced text.data with
  | some grp => quizLiteralAt (String.mk grp) text
  | none => quizLiteralAt text text

/-- Parsing a chosen jsonText with the quiz fallback on the raw text and
the amended value rule: the value of the questions key when truthy, the
empty list when the key is absent or its value is falsy. -/
def quizAmendedAt (jsonText raw : String) : Json :=
  match Json.parse jsonText with
  | some json => questionsValue json
  | none => Json.arr (fallbackQuizLines raw)

/-- C5 as amended: a fenced block with nonempty content is parsed,
otherwise the whole text; the value of the questions key when truthy (the
empty list when the key is absent or its value falsy) on success, the
numbered lines of the raw text on failure. -/
def quizClaimAmended (text : String) : Json :=
  match extractFenced text.data with
  | some grp =>
    if grp = [] then quizAmendedAt text text else quizAmendedAt (String.mk grp) text
  | none => quizAmendedAt text text

/-- C6 read literally: the fenced-block content when one occurs, otherwise
the whole text, parsed; the value of the flashcards key (or the empty list
when the key is absent) on success, the empty list on failure. -/
def flashcardsClaimLiteral (text : String) : Json :=
  match extractFenced text.data with
  | some grp =>
    match Json.parse (String.mk grp) with
    | some json =>
      match objGet json "flashcards" with
      | some v => v
      | none => Json.arr []
    | none => Json.arr []
  | none =>
    match Json.parse text with
    | some json =>
      match objGet json "flashcards" with
      | some v => v
      | none => Json.arr []
    | none => Json.arr []

/-- Parsing a chosen jsonText with the amended flashcards value rule. -/
def flashcardsAmendedAt (jsonText : String) : Json :=
  match Json.parse jsonText with
  | some json => flashcardsValue json
  | none => Json.arr []

/-- C6 as amended: a fenced block with nonempty content is parsed,
otherwise the whole text; the value of the flashcards key when truthy (the
empty list when the key is absent or its value falsy) on success, the
empty list on failure. -/
def flashcardsClaimAmended (text : String) : Json :=
  match extractFenced text.data with
  | some grp =>
    if grp = [] then flashcardsAmendedAt text else flashcardsAmendedAt (String.mk grp)
  | none => flashcardsAmendedAt text

/-- What it means for a line to pass the numbered-line regular expression:
a nonempty run of digits, then a period, then one whitespace character,
then anything. -/
def NumberedLineSpec (l : List Char) : Prop :=
  ∃ ds w rest, l = ds ++ '.' :: w :: rest ∧ ds ≠ [] ∧
    (∀ c ∈ ds, isDigit c = true) ∧ isJsWs w = true

/-! ## The view-state controller of src/App.tsx

The AppState enumeration of src/types.ts, the pieces of React state the
claims mention as a record, and each handler as a function giving the net
effect of its setState calls on the success path. -/

inductive AppState where
  | HOME
  | MENU
  | STUDY_PLAN
  | QUESTION_PAPER
  | QUIZ_SYLLABUS
  | GRAMMAR_OPTIONS
  | QUIZ
  | QUIZ_RESULTS
  | SUMMARY
  | ANSWERS
  | FLASHCARDS
  | AI_TUTOR
deriving DecidableEq

structure IncorrectAnswer where
  question : String
  userAnswer : String
  correctAnswerExplanation : String
deriving DecidableEq

structure FlashcardType where
  term : String
  definition : String
deriving DecidableEq

structure ChatMessage where
  role : String
  text : String
deriving DecidableEq

structure PdfLink where
  title : String
  url : String
deriving DecidableEq

structure AppSt where
  appState : AppState
  previousAppState : AppState
  textbookName : String
  error : Option String
  generatedContent : String
  syllabus : String
  quizQuestions : List String
  currentQuestionIndex : Nat
  userAnswers : List String
  quizScore : Nat
  incorrectAnswers : List IncorrectAnswer
  flashcards : List FlashcardType
deriving DecidableEq

/-- The state the useState initializers build on mount. -/
def initialState : AppSt :=
  { appState := AppState.HOME
    previousAppState := AppState.HOME
    textbookName := ""
    error := none
    generatedContent := ""
    syllabus := ""
    quizQuestions := []
    currentQuestionIndex := 0
    userAnswers := []
    quizScore := 0
    incorrectAnswers := []
    flashcards := [] }

/-- App.handleBackToMenu of src/App.tsx lines 83-94. Note that this
variant does not reset incorrectAnswers. -/
def handleBackToMenu (st : AppSt) : AppSt :=
  { st with
    appState := AppState.MENU
    error := none
    generatedContent := ""
    quizQuestions := []
    currentQuestionIndex := 0
    userAnswers := []
    quizScore := 0
    flashcards := []
    syllabus := "" }

/-- App.navigateTo of src/App.tsx lines 122-126. -/
def navigateTo (st : AppSt) (target : AppState) : AppSt :=
  { st with
    generatedContent := ""
    previousAppState := st.appState
    appState := target }

/-- The banner App.handleGenerateQuiz sets when zero questions parse. -/
def quizGenerationFailedMessage : String :=
  "Sorry, I couldn\x27t generate a quiz for that topic. Try being more specific."

/-- App.handleGenerateQuiz of src/App.tsx lines 139-160 on the success
path of the service call, as a function of the parsed question list. -/
def handleGenerateQuiz (st : AppSt) (questions : List String) : AppSt :=
  let st1 :=
    { st with
      quizQuestions := questions
      userAnswers := List.replicate questions.length ""
      incorrectAnswers := []
      quizScore := 0
      currentQuestionIndex := 0 }
  if questions.length > 0 then
    { st1 with appState := AppState.QUIZ }
  else
    { st1 with
      error := some quizGenerationFailedMessage
      appState := AppState.QUIZ_SYLLABUS }

/-- App.handleAnswerSubmit of src/App.tsx lines 162-189 on the success
path of the evaluation call, as a function of the evaluation text. -/
def handleAnswerSubmit (st : AppSt) (answer evaluation : String) : AppSt :=
  let st1 := { st with userAnswers := st.userAnswers.set st.currentQuestionIndex answer }
  let st2 :=
    if strStartsWith (jsToLowerCase evaluation) "correct" then
      { st1 with quizScore := st1.quizScore + 1 }
    else
      { st1 with
        incorrectAnswers := st1.incorrectAnswers ++
          [{ question := st1.quizQuestions.getD st1.currentQuestionIndex ""
             userAnswer := answer
             correctAnswerExplanation := evaluation }] }
  if st2.currentQuestionIndex < st2.quizQuestions.length - 1 then
    { st2 with currentQuestionIndex := st2.currentQuestionIndex + 1 }
  else
    { st2 with appState := AppState.QUIZ_RESULTS }

/-! ## The variant controller of src/unnamed/part_000

The same application with the PDF features and the two-phase quiz flow:
its own AppState enumeration, state record and quiz handlers. -/

namespace PartB

inductive AppState where
  | HOME
  | MENU
  | STUDY_PLAN
  | QUESTION_PAPER
  | QUIZ_SYLLABUS
  | GRAMMAR_OPTIONS
  | QUIZ
  | QUIZ_RESULTS
  | SUMMARY
  | ANSWERS
  | FLASHCARDS
  | AI_TUTOR
  | PDF_CHAT
  | PDF_FINDER
deriving DecidableEq

structure AppSt where
  appState : AppState
  previousAppState : AppState
  textbookName : String
  error : Option String
  generatedContent : String
  syllabus : String
  quizQuestions : List String
  currentQuestionIndex : Nat
  userAnswers : List String
  quizScore : Nat
  incorrectAnswers : List IncorrectAnswer
  showEvaluationResult : Bool
  showIncorrectList : Bool
  flashcards : List FlashcardType
  pdfFile : Option String
  pdfText : String
  pdfChatHistory : List ChatMessage
  pdfChat : Option Unit
  pdfLinks : List PdfLink
  hasSearchedForPdf : Bool
deriving DecidableEq

/-- handleBackToMenu of src/unnamed/part_000 lines 112-134: the full
reset, including incorrectAnswers, the reveal flags and the PDF state. -/
def handleBackToMenu (st : AppSt) : AppSt :=
  { st with
    appState := AppState.MENU
    error := none
    generatedContent := ""
    quizQuestions := []
    currentQuestionIndex := 0
    userAnswers := []
    quizScore := 0
    incorrectAnswers := []
    showEvaluationResult := false
    showIncorrectList := false
    flashcards := []
    syllabus := ""
    pdfFile := none
    pdfText := ""
    pdfChatHistory := []
    pdfChat := none
    pdfLinks := []
    hasSearchedForPdf := false }

/-- navigateTo of src/unnamed/part_000 lines 162-166. -/
def navigateTo (st : AppSt) (target : AppState) : AppSt :=
  { st with
    generatedContent := ""
    previousAppState := st.appState
    appState := target }

/-- handleProceedToNext of src/unnamed/part_000 lines 229-236. -/
def handleProceedToNext (st : AppSt) : AppSt :=
  let st1 := { st with showEvaluationResult := false }
  if st1.currentQuestionIndex < st1.quizQuestions.length - 1 then
    { st1 with currentQuestionIndex := st1.currentQuestionIndex + 1 }
  else
    { st1 with appState := AppState.QUIZ_RESULTS }

/-- handleAnswerSubmit of src/unnamed/part_000 lines 204-227 on the
success path: a correct verdict scores and proceeds at once, an incorrect
verdict logs the answer and reveals the explanation screen instead. -/
def handleAnswerSubmit (st : AppSt) (answer evaluation : String) : AppSt :=
  let st1 := { st with userAnswers := st.userAnswers.set st.currentQuestionIndex answer }
  if strStartsWith (jsToLowerCase evaluation) "correct" then
    handleProceedToNext { st1 with quizScore := st1.quizScore + 1 }
  else
    { st1 with
      incorrectAnswers := st1.incorrectAnswers ++
        [{ question := st1.quizQuestions.getD st1.currentQuestionIndex ""
           userAnswer := answer
           correctAnswerExplanation := evaluation }]
      showEvaluationResult := true }

/-- handleGenerateQuiz of src/unnamed/part_000 lines 179-202 on the
success path. -/
def handleGenerateQuiz (st : AppSt) (questions : List String) : AppSt :=
  let st1 :=
    { st with
      quizQuestions := questions
      userAnswers := List.replicate questions.length ""
      incorrectAnswers := []
      showEvaluationResult := false
      showIncorrectList := false
      quizScore := 0
      currentQuestionIndex := 0 }
  if questions.length > 0 then
    { st1 with appState := AppState.QUIZ }
  else
    { st1 with
      error := some quizGenerationFailedMessage
      appState := AppState.QUIZ_SYLLABUS }

end PartB

/-! ## The textbook classifiers of geminiService -/

/-- researchTextbook of geminiService lines 65-74, from the response text
to the returned boolean: the lowercased text starts with yes. -/
def researchTextbook (responseText : String) : Bool :=
  strStartsWith (jsToLowerCase responseText) "yes"

/-- isLanguageTextbook of geminiService lines 76-86, from the response
text to the returned boolean: the lowercased text contains yes anywhere. -/
def isLanguageTextbook (responseText : String) : Bool :=
  containsSubstr "yes" (jsToLowerCase responseText)

/-! ## The renderState switch of App.tsx -/

/-- One tag per arm of the renderState switch of src/App.tsx lines
253-607, plus the default arm. -/
inductive ScreenTag where
  | homeScreen
  | menuScreen
  | quizSyllabusScreen
  | quizScreen
  | quizResultsScreen
  | flashcardsScreen
  | summaryScreen
  | aiTutorScreen
  | studyPlanScreen
  | answersScreen
  | questionPaperScreen
  | fallbackScreen
deriving DecidableEq

/-- The renderState switch as a function from the active AppState to the
screen rendered; GRAMMAR_OPTIONS has no case of its own and falls to the
default arm. -/
def renderState : AppState → ScreenTag
  | AppState.HOME => ScreenTag.homeScreen
  | AppState.MENU => ScreenTag.menuScreen
  | AppState.QUIZ_SYLLABUS => ScreenTag.quizSyllabusScreen
  | AppState.QUIZ => ScreenTag.quizScreen
  | AppState.QUIZ_RESULTS => ScreenTag.quizResultsScreen
  | AppState.FLASHCARDS => ScreenTag.flashcardsScreen
  | AppState.SUMMARY => ScreenTag.summaryScreen
  | AppState.AI_TUTOR => ScreenTag.aiTutorScreen
  | AppState.STUDY_PLAN => ScreenTag.studyPlanScreen
  | AppState.ANSWERS => ScreenTag.answersScreen
  | AppState.QUESTION_PAPER => ScreenTag.questionPaperScreen
  | AppState.GRAMMAR_OPTIONS => ScreenTag.fallbackScreen

/-! ## Quiz sessions for the score invariant -/

/-- A quiz session: fold a list of submitted (answer, evaluation) events
over the state. A submission is only possible while the QUIZ screen is
active (its submit button exists nowhere else), so events arriving on any
other screen change nothing; the second component counts the evaluations
that actually happened. -/
def runQuizSession : AppSt → List (String × String) → AppSt × Nat
  | st, [] => (st, 0)
  | st, e :: rest =>
    if st.appState = AppState.QUIZ then
      ((runQuizSession (handleAnswerSubmit st e.1 e.2) rest).1,
        (runQuizSession (handleAnswerSubmit st e.1 e.2) rest).2 + 1)
    else
      runQuizSession st rest

/-- The session invariant behind C9: the question count is fixed, on the
QUIZ screen the score plus the incorrect log length equals the current
index which is in bounds, and on the results screen score plus log length
is at most the question count. -/
def QuizInv (n : Nat) (st : AppSt) : Prop :=
  st.quizQuestions.length = n ∧
  (st.appState = AppState.QUIZ →
    st.quizScore + st.incorrectAnswers.length = st.currentQuestionIndex ∧
    st.currentQuestionIndex < n) ∧
  (st.appState = AppState.QUIZ_RESULTS →
    st.quizScore + st.incorrectAnswers.length ≤ n)

/-! ## Theorems

Helper lemmas giving the string searches their meaning, then the
theorems settling the claims. -/

theorem splitFirst_sound (pat : List Char) :
    ∀ cs before after, splitFirst pat cs = some (before, after) →
      cs = before ++ pat ++ after := by
  intro cs
  induction cs with
  | nil =>
    intro before after h
    unfold splitFirst at h
    split at h
    · rename_i hp
      have hpe : pat = [] := List.isEmpty_iff.mp hp
      simp only [Option.some.injEq, Prod.mk.injEq] at h
      obtain ⟨hb, ha⟩ := h
      subst hb; subst ha
      simp [hpe]
    · exact absurd h (by simp)
  | cons c rest ih =>
    intro before after h
    unfold splitFirst at h
    split at h
    · rename_i hp
      obtain ⟨t, ht⟩ := List.isPrefixOf_iff_prefix.mp hp
      simp only [Option.some.injEq, Prod.mk.injEq] at h
      obtain ⟨hb, ha⟩ := h
      subst hb; subst ha
      rw [← ht, List.drop_left]
      simp
    · split at h
      · rename_i before' after' hrest
        simp only [Option.some.injEq, Prod.mk.injEq] at h
        obtain ⟨hb, ha⟩ := h
        subst hb; subst ha
        have := ih before' after' hrest
        simp [this]
      · exact absurd h (by simp)

theorem splitFirst_none (pat : List Char) (hp : pat ≠ []) :
    ∀ cs, splitFirst pat cs = none → ∀ before after, cs ≠ before ++ pat ++ after := by
  intro cs
  induction cs with
  | nil =>
    intro _ before after heq
    have hlen := congrArg List.length heq
    simp [List.length_append] at hlen
    exact hp (List.length_eq_zero.mp (by omega))
  | cons c rest ih =>
    intro h before after heq
    unfold splitFirst at h
    split at h
    · exact absurd h (by simp)
    · rename_i hnp
      have hrest : splitFirst pat rest = none := by
        revert h
        split
        · intro h; exact absurd h (by simp)
        · intro _; assumption
      cases before with
      | nil =>
        simp only [List.nil_append] at heq
        exact hnp (List.isPrefixOf_iff_prefix.mpr ⟨after, heq.symm⟩)
      | cons b before' =>
        simp only [List.cons_append] at heq
        injection heq with hc hrest2
        exact ih hrest before' after hrest2

theorem extractFenced_sound :
    ∀ cs grp, extractFenced cs = some grp →
      ∃ before after, cs = before ++ openPat ++ grp ++ closePat ++ after := by
  intro cs
  induction cs with
  | nil => intro grp h; exact absurd h (by simp [extractFenced])
  | cons c rest ih =>
    intro grp h
    unfold extractFenced at h
    split at h
    · rename_i hp
      obtain ⟨t, ht⟩ := List.isPrefixOf_iff_prefix.mp hp
      have hdrop : (c :: rest).drop openPat.length = t := by
        rw [← ht, List.drop_left]
      split at h
      · rename_i g after2 hsplit
        have hg : grp = g := (Option.some.inj h).symm
        rw [hdrop] at hsplit
        have hdec := splitFirst_sound closePat t g after2 hsplit
        refine ⟨[], after2, ?_⟩
        rw [hg, ← ht, hdec]
        simp
      · obtain ⟨b, a, hba⟩ := ih grp h
        exact ⟨c :: b, a, by simp [hba]⟩
    · obtain ⟨b, a, hba⟩ := ih grp h
      exact ⟨c :: b, a, by simp [hba]⟩

theorem extractFenced_none :
    ∀ cs, extractFenced cs = none →
      ∀ before grp after, cs ≠ before ++ openPat ++ grp ++ closePat ++ after := by
  intro cs
  induction cs with
  | nil =>
    intro _ before grp after heq
    have hlen := congrArg List.length heq
    simp [List.length_append, openPat] at hlen
    omega
  | cons c rest ih =>
    intro h before grp after heq
    unfold extractFenced at h
    split at h
    · rename_i hp
      obtain ⟨t, ht⟩ := List.isPrefixOf_iff_prefix.mp hp
      have hdrop : (c :: rest).drop openPat.length = t := by
        rw [← ht, List.drop_left]
      have hsplit : splitFirst closePat t = none := by
        rw [← hdrop]
        revert h
        split
        · intro h; exact absurd h (by simp)
        · intro _; assumption
      have hrest : extractFenced rest = none := by
        revert h
        split
        · intro h; exact absurd h (by simp)
        · intro h; exact h
      cases before with
      | nil =>
        simp only [List.nil_append] at heq
        have hteq : t = grp ++ closePat ++ after := by
          have h2 : openPat ++ t = openPat ++ (grp ++ closePat ++ after) := by
            rw [ht, heq]
            simp
          exact List.append_cancel_left h2
        exact splitFirst_none closePat (by decide) t hsplit (grp) after hteq
      | cons b before' =>
        simp only [List.cons_append] at heq
        injection heq with hc hrest2
        exact ih hrest before' grp after hrest2
    · rename_i hnp
      have hrest : extractFenced rest = none := h
      cases before with
      | nil =>
        simp only [List.nil_append] at heq
        refine hnp (List.isPrefixOf_iff_prefix.mpr ⟨grp ++ closePat ++ after, ?_⟩)
        rw [heq]
        simp
      | cons b before' =>
        simp only [List.cons_append] at heq
        injection heq with hc hrest2
        exact ih hrest before' grp after hrest2

theorem afterDigits_of_spec :
    ∀ ds w rest, (∀ c ∈ ds, isDigit c = true) → isJsWs w = true →
      afterDigits (ds ++ '.' :: w :: rest) = true := by
  intro ds
  induction ds with
  | nil =>
    intro w rest _ hw
    simp only [List.nil_append]
    unfold afterDigits
    simp [hw, isDigit]
  | cons d ds' ih =>
    intro w rest hdig hw
    have hd : isDigit d = true := hdig d (by simp)
    simp only [List.cons_append]
    unfold afterDigits
    simp only [hd, if_pos]
    exact ih w rest (fun c hc => hdig c (by simp [hc])) hw

theorem afterDigits_spec :
    ∀ l, afterDigits l = true →
      ∃ ds w rest, l = ds ++ '.' :: w :: rest ∧
        (∀ c ∈ ds, isDigit c = true) ∧ isJsWs w = true := by
  intro l
  induction l with
  | nil => intro h; exact absurd h (by simp [afterDigits])
  | cons c rest ih =>
    intro h
    unfold afterDigits at h
    split at h
    · rename_i hd
      obtain ⟨ds, w, r, hl, hdig, hw⟩ := ih h
      refine ⟨c :: ds, w, r, by simp [hl], ?_, hw⟩
      intro x hx
      rcases List.mem_cons.mp hx with hx | hx
      · subst hx; exact hd
      · exact hdig x hx
    · split at h
      · rename_i hdot
        subst hdot
        cases rest with
        | nil => exact absurd h (by simp)
        | cons w r => exact ⟨[], w, r, by simp, by simp, h⟩
      · exact absurd h (by simp)

theorem startsNumberedLine_iff (l : List Char) :
    startsNumberedLine l = true ↔ NumberedLineSpec l := by
  constructor
  · intro h
    cases l with
    | nil => exact absurd h (by simp [startsNumberedLine])
    | cons c rest =>
      unfold startsNumberedLine at h
      rw [Bool.and_eq_true] at h
      obtain ⟨hc, hrest⟩ := h
      obtain ⟨ds, w, r, hl, hdig, hw⟩ := afterDigits_spec rest hrest
      refine ⟨c :: ds, w, r, by simp [hl], by simp, ?_, hw⟩
      intro x hx
      rcases List.mem_cons.mp hx with hx | hx
      · subst hx; exact hc
      · exact hdig x hx
  · rintro ⟨ds, w, r, hl, hne, hdig, hw⟩
    cases ds with
    | nil => exact absurd rfl hne
    | cons d ds' =>
      subst hl
      simp only [List.cons_append]
      unfold startsNumberedLine
      rw [Bool.and_eq_true]
      refine ⟨hdig d (by simp), ?_⟩
      exact afterDigits_of_spec ds' w r (fun c hc => hdig c (by simp [hc])) hw

/-! ## C1 -/

/-- C1 (code bug): the claim says the banner is the quota advisory exactly
when the backend error message contains RESOURCE_EXHAUSTED, through the
generateContent wrapper. In fact the wrapper replaces such an error by a
QuotaExceededError whose message does not contain RESOURCE_EXHAUSTED, so
handleError classifies the rewrapped error as generic: after any backend
error that travels through the wrapper the banner is always the generic
message, never the quota advisory. -/
theorem c1_quota_banner_bug :
    isQuotaError { message := "429 RESOURCE_EXHAUSTED: quota exceeded" } = true ∧
    bannerAfterBackendError { message := "429 RESOURCE_EXHAUSTED: quota exceeded" } =
      genericErrorMessage ∧
    genericErrorMessage ≠ quotaExceededMessage ∧
    ∀ e : JsError, bannerAfterBackendError e = genericErrorMessage := by
  refine ⟨by decide, by decide, by decide, ?_⟩
  intro e
  unfold bannerAfterBackendError generateContent
  by_cases h : isQuotaError e = true
  · simp only [h, if_pos]
    decide
  · have h' : isQuotaError e = false := by
      cases hb : isQuotaError e
      · rfl
      · exact absurd hb h
    simp [h', handleError]

/-! ## C2, C3 and C4 -/

/-- C2 counterexample: in the App.tsx variant, reach the results screen of
a one-question quiz answered incorrectly and go back to the menu; the
incorrect-answer log is still not empty, because handleBackToMenu of
src/App.tsx does not reset incorrectAnswers (only handleGenerateQuiz
does), refuting the claim that after the back-to-menu transition the
incorrect-answer log is empty. -/
theorem c2_counterexample :
    (handleBackToMenu
        (runQuizSession (handleGenerateQuiz initialState ["q1"])
          [("my answer", "Incorrect. The answer is B")]).1).incorrectAnswers ≠ [] := by
  decide

/-- C2 as amended: handleBackToMenu of App.tsx sets the screen to MENU,
clears the error banner, the generated content, the quiz questions, the
user answers, the flashcards and the syllabus, and zeroes the score and
the question index, but leaves the incorrect-answer log unchanged; in the
part_000 variant the same transition also empties the incorrect-answer
log, the reveal flags and the PDF state; and navigateTo clears
generatedContent and sets exactly the target screen in both variants. -/
theorem c2_back_to_menu_reset (st : AppSt) (stP : PartB.AppSt)
    (target : AppState) (targetP : PartB.AppState) :
    (handleBackToMenu st).appState = AppState.MENU ∧
    (handleBackToMenu st).error = none ∧
    (handleBackToMenu st).generatedContent = "" ∧
    (handleBackToMenu st).quizQuestions = [] ∧
    (handleBackToMenu st).userAnswers = [] ∧
    (handleBackToMenu st).flashcards = [] ∧
    (handleBackToMenu st).quizScore = 0 ∧
    (handleBackToMenu st).currentQuestionIndex = 0 ∧
    (handleBackToMenu st).syllabus = "" ∧
    (handleBackToMenu st).incorrectAnswers = st.incorrectAnswers ∧
    (PartB.handleBackToMenu stP).appState = PartB.AppState.MENU ∧
    (PartB.handleBackToMenu stP).error = none ∧
    (PartB.handleBackToMenu stP).generatedContent = "" ∧
    (PartB.handleBackToMenu stP).quizQuestions = [] ∧
    (PartB.handleBackToMenu stP).userAnswers = [] ∧
    (PartB.handleBackToMenu stP).flashcards = [] ∧
    (PartB.handleBackToMenu stP).quizScore = 0 ∧
    (PartB.handleBackToMenu stP).currentQuestionIndex = 0 ∧
    (PartB.handleBackToMenu stP).syllabus = "" ∧
    (PartB.handleBackToMenu stP).incorrectAnswers = [] ∧
    (PartB.handleBackToMenu stP).showEvaluationResult = false ∧
    (PartB.handleBackToMenu stP).pdfText = "" ∧
    (PartB.handleBackToMenu stP).pdfChatHistory = [] ∧
    (PartB.handleBackToMenu stP).pdfLinks = [] ∧
    (navigateTo st target).generatedContent = "" ∧
    (navigateTo st target).appState = target ∧
    (PartB.navigateTo stP targetP).generatedContent = "" ∧
    (PartB.navigateTo stP targetP).appState = targetP := by
  and_intros <;> rfl

/-- C3: on a successful evaluation, the score is incremented by exactly
one if and only if the lowercased evaluation text starts with the prefix
correct, in which case the incorrect-answer log is untouched; otherwise
the score is unchanged and one record holding the current question, the
submitted answer and the full evaluation text is appended to the log —
exactly one of the two effects per evaluation. -/
theorem c3_answer_scoring (st : AppSt) (answer evaluation : String) :
    (strStartsWith (jsToLowerCase evaluation) "correct" = true →
      (handleAnswerSubmit st answer evaluation).quizScore = st.quizScore + 1 ∧
      (handleAnswerSubmit st answer evaluation).incorrectAnswers = st.incorrectAnswers) ∧
    (strStartsWith (jsToLowerCase evaluation) "correct" = false →
      (handleAnswerSubmit st answer evaluation).quizScore = st.quizScore ∧
      (handleAnswerSubmit st answer evaluation).incorrectAnswers =
        st.incorrectAnswers ++
          [{ question := st.quizQuestions.getD st.currentQuestionIndex ""
             userAnswer := answer
             correctAnswerExplanation := evaluation }]) := by
  constructor
  · intro h
    simp [handleAnswerSubmit, h]
    split <;> simp
  · intro h
    simp [handleAnswerSubmit, h]
    split <;> simp

/-- C4 counterexample: in the App.tsx variant an incorrect verdict on a
fresh two-question quiz advances the question index within the submit
handler itself, with no explanation screen and no user proceed action,
refuting the claim that after an incorrect verdict the quiz advances only
when the user proceeds from a revealed explanation screen. -/
theorem c4_counterexample :
    (handleAnswerSubmit (handleGenerateQuiz initialState ["q1", "q2"]) "a"
        "Incorrect. wrong").currentQuestionIndex = 1 ∧
    (handleGenerateQuiz initialState ["q1", "q2"]).currentQuestionIndex = 0 := by
  decide

/-- C4 as amended: the two-phase flow with the conditional reveal is the
part_000 variant. There, a correct verdict stores the answer, increments
the score and proceeds at once; an incorrect verdict leaves the index and
the screen unchanged and sets the reveal flag, so the quiz advances only
through handleProceedToNext; proceeding from index i with i below the last
index moves to i+1 on the same screen, and proceeding from the last
question moves to the results screen. In the App.tsx variant there is no
reveal phase: the submit handler itself advances to i+1 below the last
index and to the results screen on the last question, for both verdicts. -/
theorem c4_two_phase (st : PartB.AppSt) (stA : AppSt) (answer evaluation : String) :
    (strStartsWith (jsToLowerCase evaluation) "correct" = true →
      PartB.handleAnswerSubmit st answer evaluation =
        PartB.handleProceedToNext
          { st with
            userAnswers := st.userAnswers.set st.currentQuestionIndex answer
            quizScore := st.quizScore + 1 }) ∧
    (strStartsWith (jsToLowerCase evaluation) "correct" = false →
      (PartB.handleAnswerSubmit st answer evaluation).currentQuestionIndex =
        st.currentQuestionIndex ∧
      (PartB.handleAnswerSubmit st answer evaluation).appState = st.appState ∧
      (PartB.handleAnswerSubmit st answer evaluation).showEvaluationResult = true) ∧
    (st.currentQuestionIndex < st.quizQuestions.length - 1 →
      (PartB.handleProceedToNext st).currentQuestionIndex = st.currentQuestionIndex + 1 ∧
      (PartB.handleProceedToNext st).appState = st.appState ∧
      (PartB.handleProceedToNext st).showEvaluationResult = false) ∧
    (¬ st.currentQuestionIndex < st.quizQuestions.length - 1 →
      (PartB.handleProceedToNext st).appState = PartB.AppState.QUIZ_RESULTS ∧
      (PartB.handleProceedToNext st).currentQuestionIndex = st.currentQuestionIndex ∧
      (PartB.handleProceedToNext st).showEvaluationResult = false) ∧
    (stA.currentQuestionIndex < stA.quizQuestions.length - 1 →
      (handleAnswerSubmit stA answer evaluation).currentQuestionIndex =
        stA.currentQuestionIndex + 1) ∧
    (¬ stA.currentQuestionIndex < stA.quizQuestions.length - 1 →
      (handleAnswerSubmit stA answer evaluation).appState = AppState.QUIZ_RESULTS) := by
  refine ⟨?_, ?_, ?_, ?_, ?_, ?_⟩
  · intro h
    simp [PartB.handleAnswerSubmit, h]
  · intro h
    simp [PartB.handleAnswerSubmit, h]
  · intro h
    simp [PartB.handleProceedToNext]
    split <;> simp_all
  · intro h
    simp [PartB.handleProceedToNext]
    split <;> simp_all
  · intro h
    simp [handleAnswerSubmit]
    split <;> simp [h]
  · intro h
    simp [handleAnswerSubmit]
    split <;> simp [h]

/-! ## C5 and C6 -/

/-- C5 counterexample: on the response text consisting of the JSON object
binding questions to null, the code returns the empty array (null is falsy,
so the or-empty-list default fires), while the claim as stated returns the
value of the questions key, which is null. -/
theorem c5_counterexample :
    generateQuizQuestions "\x7b\"questions\": null\x7d" ≠
      quizClaimLiteral "\x7b\"questions\": null\x7d" := by
  have h1 : generateQuizQuestions "\x7b\"questions\": null\x7d" = Json.arr [] := rfl
  have h2 : quizClaimLiteral "\x7b\"questions\": null\x7d" = Json.null := rfl
  rw [h1, h2]
  intro h
  exact Json.noConfusion h

/-- C5 as amended: generateQuizQuestions parses the content of a fenced
json block when one with nonempty content occurs in the response text and
the whole text otherwise; on a successful parse it returns the value of
the questions key when that value is truthy and the empty list when the
key is absent or its value falsy; when parsing fails it returns exactly
the lines of the raw text that start with one or more digits, a period
and a whitespace character — and, being a total function, it never throws.
The second and third conjuncts say that extractFenced finds a fenced block
exactly when the text decomposes around one, and the last says what the
numbered-line test means, so the equality is about a genuine search. -/
theorem c5_parse_amended (text : String) :
    generateQuizQuestions text = quizClaimAmended text ∧
    (∀ grp, extractFenced text.data = some grp →
      ∃ before after, text.data = before ++ openPat ++ grp ++ closePat ++ after) ∧
    (extractFenced text.data = none →
      ∀ before grp after, text.data ≠ before ++ openPat ++ grp ++ closePat ++ after) ∧
    (∀ l, startsNumberedLine l = true ↔ NumberedLineSpec l) := by
  refine ⟨?_, fun grp h => extractFenced_sound text.data grp h,
    fun h => extractFenced_none text.data h, fun l => startsNumberedLine_iff l⟩
  have hgen : generateQuizQuestions text = quizAmendedAt (jsonTextOf text) text := rfl
  rw [hgen]
  unfold jsonTextOf quizClaimAmended
  cases h : extractFenced text.data with
  | none => rfl
  | some grp =>
    cases grp with
    | nil => rfl
    | cons a as => rfl

/-- C6 counterexample: on the response text consisting of the JSON object
binding flashcards to null, the code returns the empty array while the
claim as stated returns the value of the flashcards key, which is null. -/
theorem c6_counterexample :
    generateFlashcards "\x7b\"flashcards\": null\x7d" ≠
      flashcardsClaimLiteral "\x7b\"flashcards\": null\x7d" := by
  have h1 : generateFlashcards "\x7b\"flashcards\": null\x7d" = Json.arr [] := rfl
  have h2 : flashcardsClaimLiteral "\x7b\"flashcards\": null\x7d" = Json.null := rfl
  rw [h1, h2]
  intro h
  exact Json.noConfusion h

/-- C6 as amended: generateFlashcards extracts a fenced json block with
nonempty content when present (otherwise the whole text), parses it, and
returns the value of the flashcards key when truthy and the empty list
when the key is absent or its value falsy; when parsing fails it returns
the empty list, so a malformed response yields zero flashcards and never
an error. The last two conjuncts state the parse-failure and parse-success
behaviour directly against the parser. -/
theorem c6_parse_amended (text : String) :
    generateFlashcards text = flashcardsClaimAmended text ∧
    (Json.parse (jsonTextOf text) = none → generateFlashcards text = Json.arr []) ∧
    (∀ j, Json.parse (jsonTextOf text) = some j →
      generateFlashcards text = flashcardsValue j) := by
  refine ⟨?_, ?_, ?_⟩
  · have hgen : generateFlashcards text = flashcardsAmendedAt (jsonTextOf text) := rfl
    rw [hgen]
    unfold jsonTextOf flashcardsClaimAmended
    cases h : extractFenced text.data with
    | none => rfl
    | some grp =>
      cases grp with
      | nil => rfl
      | cons a as => rfl
  · intro h
    unfold generateFlashcards
    rw [h]
  · intro j h
    unfold generateFlashcards
    rw [h]

/-! ## C7, C8, C9 and C10 -/

/-- C7: the active screen is one value of the fixed AppState enumeration
(the second conjunct enumerates it exhaustively), renderState renders
exactly one screen for each of them, and every transition handler leaves
appState at a single value, so no reachable state renders two screens or
none. -/
theorem c7_single_screen :
    (∀ a : AppState, ∃! t : ScreenTag, renderState a = t) ∧
    (∀ a : AppState,
      a = AppState.HOME ∨ a = AppState.MENU ∨ a = AppState.STUDY_PLAN ∨
      a = AppState.QUESTION_PAPER ∨ a = AppState.QUIZ_SYLLABUS ∨
      a = AppState.GRAMMAR_OPTIONS ∨ a = AppState.QUIZ ∨
      a = AppState.QUIZ_RESULTS ∨ a = AppState.SUMMARY ∨
      a = AppState.ANSWERS ∨ a = AppState.FLASHCARDS ∨
      a = AppState.AI_TUTOR) ∧
    (∀ st : AppSt, (handleBackToMenu st).appState = AppState.MENU) ∧
    (∀ st target, (navigateTo st target).appState = target) ∧
    (∀ st questions, (handleGenerateQuiz st questions).appState = AppState.QUIZ ∨
      (handleGenerateQuiz st questions).appState = AppState.QUIZ_SYLLABUS) ∧
    (∀ st answer evaluation,
      (handleAnswerSubmit st answer evaluation).appState = st.appState ∨
      (handleAnswerSubmit st answer evaluation).appState = AppState.QUIZ_RESULTS) := by
  refine ⟨?_, ?_, ?_, ?_, ?_, ?_⟩
  · intro a
    exact ⟨renderState a, rfl, fun t ht => ht.symm⟩
  · intro a
    cases a <;> simp
  · intro st
    rfl
  · intro st target
    rfl
  · intro st questions
    unfold handleGenerateQuiz
    split <;> simp
  · intro st answer evaluation
    simp [handleAnswerSubmit]
    split <;> split <;> simp

/-- C8: researchTextbook answers true exactly when the lowercased response
has the prefix yes, isLanguageTextbook answers true exactly when the
lowercased response contains yes anywhere (the first two conjuncts state
the two tests as decompositions of the text), and the concrete response
below, which begins with No but contains yes later, separates them. -/
theorem c8_classifiers :
    (∀ t, researchTextbook t = true ↔
      ∃ rest, (jsToLowerCase t).data = ("yes").data ++ rest) ∧
    (∀ t, isLanguageTextbook t = true ↔
      ∃ before after, (jsToLowerCase t).data = before ++ ("yes").data ++ after) ∧
    (isLanguageTextbook "No. It does however say yes further on." = true ∧
      researchTextbook "No. It does however say yes further on." = false) := by
  refine ⟨?_, ?_, by decide, by decide⟩
  · intro t
    unfold researchTextbook strStartsWith
    rw [List.isPrefixOf_iff_prefix]
    exact ⟨fun ⟨rest, hr⟩ => ⟨rest, hr.symm⟩, fun ⟨rest, hr⟩ => ⟨rest, hr.symm⟩⟩
  · intro t
    unfold isLanguageTextbook containsSubstr
    constructor
    · intro h
      rw [Option.isSome_iff_exists] at h
      obtain ⟨⟨before, after⟩, hsp⟩ := h
      exact ⟨before, after, splitFirst_sound _ _ before after hsp⟩
    · rintro ⟨before, after, hdec⟩
      cases hsp : splitFirst ("yes").data (jsToLowerCase t).data with
      | some p => simp
      | none =>
        exact absurd hdec (splitFirst_none _ (by decide) _ hsp before after)

/-- Each successful answer evaluation moves the sum of the score and the
incorrect-log length up by exactly one. -/
theorem handleAnswerSubmit_scoreLog (st : AppSt) (answer evaluation : String) :
    (handleAnswerSubmit st answer evaluation).quizScore +
      (handleAnswerSubmit st answer evaluation).incorrectAnswers.length =
      st.quizScore + st.incorrectAnswers.length + 1 := by
  simp [handleAnswerSubmit]
  split <;> split <;> simp <;> omega

/-- A successful answer evaluation on the QUIZ screen keeps the session
invariant. -/
theorem handleAnswerSubmit_inv (n : Nat) (st : AppSt) (answer evaluation : String)
    (hq : st.appState = AppState.QUIZ) (h : QuizInv n st) :
    QuizInv n (handleAnswerSubmit st answer evaluation) := by
  obtain ⟨hlen, hquiz, hres⟩ := h
  obtain ⟨hsum, hidx⟩ := hquiz hq
  unfold QuizInv
  simp [handleAnswerSubmit]
  split <;> split <;> simp_all <;> omega

/-- Folding a list of submitted events adds one to the score-plus-log sum
per evaluation that actually happens. -/
theorem runQuizSession_scoreLog (evs : List (String × String)) :
    ∀ st : AppSt,
      (runQuizSession st evs).1.quizScore +
          (runQuizSession st evs).1.incorrectAnswers.length =
        st.quizScore + st.incorrectAnswers.length + (runQuizSession st evs).2 := by
  induction evs with
  | nil => intro st; simp [runQuizSession]
  | cons e rest ih =>
    intro st
    unfold runQuizSession
    split
    · have h1 := handleAnswerSubmit_scoreLog st e.1 e.2
      have h2 := ih (handleAnswerSubmit st e.1 e.2)
      simp
      omega
    · exact ih st

/-- Folding a list of submitted events keeps the session invariant. -/
theorem runQuizSession_inv (n : Nat) (evs : List (String × String)) :
    ∀ st : AppSt, QuizInv n st → QuizInv n (runQuizSession st evs).1 := by
  induction evs with
  | nil => intro st h; simpa [runQuizSession] using h
  | cons e rest ih =>
    intro st h
    unfold runQuizSession
    split
    · rename_i hq
      exact ih _ (handleAnswerSubmit_inv n st e.1 e.2 hq h)
    · exact ih st h

/-- C9: starting a quiz over a nonempty parsed question list (score zero
and the incorrect log empty) and running any sequence of successful
evaluations, the score plus the incorrect-log length equals the number of
evaluations that happened; and whenever the session has reached the
results screen the score is at most the number of quiz questions. -/
theorem c9_score_invariant (st : AppSt) (q : String) (qs : List String)
    (evs : List (String × String)) :
    (runQuizSession (handleGenerateQuiz st (q :: qs)) evs).1.quizScore +
        (runQuizSession (handleGenerateQuiz st (q :: qs)) evs).1.incorrectAnswers.length =
      (runQuizSession (handleGenerateQuiz st (q :: qs)) evs).2 ∧
    ((runQuizSession (handleGenerateQuiz st (q :: qs)) evs).1.appState =
        AppState.QUIZ_RESULTS →
      (runQuizSession (handleGenerateQuiz st (q :: qs)) evs).1.quizScore ≤
        (q :: qs).length) := by
  have hstart : handleGenerateQuiz st (q :: qs) =
      { st with
        quizQuestions := q :: qs
        userAnswers := List.replicate (q :: qs).length ""
        incorrectAnswers := []
        quizScore := 0
        currentQuestionIndex := 0
        appState := AppState.QUIZ } := by
    unfold handleGenerateQuiz
    rw [if_pos (by simp)]
  have hinit : QuizInv (q :: qs).length (handleGenerateQuiz st (q :: qs)) := by
    rw [hstart]
    refine ⟨by simp, fun _ => ⟨by simp, by simp⟩, fun habs => ?_⟩
    simp at habs
  have hrun := runQuizSession_inv (q :: qs).length evs _ hinit
  have hsum := runQuizSession_scoreLog evs (handleGenerateQuiz st (q :: qs))
  have hscore : (handleGenerateQuiz st (q :: qs)).quizScore = 0 := by rw [hstart]
  have hlog : (handleGenerateQuiz st (q :: qs)).incorrectAnswers = [] := by rw [hstart]
  rw [hscore, hlog] at hsum
  obtain ⟨hlen, hquiz, hresults⟩ := hrun
  constructor
  · simpa using hsum
  · intro hfin
    have := hresults hfin
    omega

/-- C10: after quiz generation the user answers are exactly one empty
string per parsed question (so their length equals the question count and
every index used during the quiz is in bounds), the app enters the QUIZ
screen exactly when at least one question was parsed, and with zero
questions it sets the quiz-generation error banner and returns to the
syllabus screen. -/
theorem c10_quiz_init (st : AppSt) (questions : List String) :
    (handleGenerateQuiz st questions).userAnswers =
      List.replicate questions.length "" ∧
    (handleGenerateQuiz st questions).userAnswers.length =
      (handleGenerateQuiz st questions).quizQuestions.length ∧
    ((handleGenerateQuiz st questions).appState = AppState.QUIZ ↔
      0 < questions.length) ∧
    (questions = [] →
      (handleGenerateQuiz st questions).appState = AppState.QUIZ_SYLLABUS ∧
      (handleGenerateQuiz st questions).error = some quizGenerationFailedMessage) := by
  unfold handleGenerateQuiz
  split
  · rename_i hpos
    refine ⟨rfl, by simp, ?_, ?_⟩
    · simp [hpos]
    · intro he
      subst he
      simp at hpos
  · rename_i hneg
    refine ⟨rfl, by simp, ?_, fun _ => ⟨rfl, rfl⟩⟩
    constructor
    · intro habs
      simp at habs
    · intro hlt
      exact absurd hlt hneg

end StudyBuddy

